import Mathlib

/-!
# Verification of the AI_Voice_Bot knowledge-retrieval and call-session core

Shallow embedding of the knowledge-base retrieval engine
(`src/knowledge/rag_search.py`, `src/knowledge/loader.py`,
`src/knowledge/schemas.py`) and the call-session lifecycle
(`src/models/call_session.py`, `src/pipeline/runner.py`,
`src/api/routes/voice.py`, `src/api/routes/websocket.py`,
`src/services/session_store.py`), together with proofs about the
specified properties.

Conventions of the embedding:
* Python strings are Lean `String`; `str.lower()` is `String.toLower`,
  `a in b` (substring test) is `containsStr b a`, and `str.split()`
  (whitespace split dropping empty tokens) is `pySplit`.
* Python float scores are modelled as exact rationals `ℚ`; all the
  constants involved (100, 50, 40, 30, 15, 20, 10, 2) are small and the
  arithmetic in scope is addition/division of small values, so `ℚ`
  captures the intended arithmetic.
* Timestamps are modelled as natural-number ticks; durations as `ℤ`.
* Mutable state (the session registry's dict) is modelled with an
  explicit heap so that aliasing behaviour (`dict.copy()`) is visible.
-/

/-! ## String helpers (Python `lower`, `in`, `split`) -/

/-- Python `p.isPrefix of s` on character lists: `List.isPrefixOf`. -/
def listContainsSub (p : List Char) : List Char → Bool
  | [] => p.isEmpty
  | c :: rest => p.isPrefixOf (c :: rest) || listContainsSub p rest

/-- Python substring test `sub in s` (note the argument order:
`containsStr s sub` means `sub` occurs inside `s`). -/
def containsStr (s sub : String) : Bool :=
  listContainsSub sub.data s.data

/-- Python `str.lower()`, character by character. -/
def lowerStr (s : String) : String :=
  ⟨s.data.map Char.toLower⟩

/-- Core of `pySplit`: accumulate the current token (reversed) while
scanning, emitting it whenever whitespace or the end is reached. -/
def splitWsAux : List Char → List Char → List (List Char)
  | [], acc => if acc.isEmpty then [] else [acc.reverse]
  | c :: cs, acc =>
    if c.isWhitespace then
      if acc.isEmpty then splitWsAux cs [] else acc.reverse :: splitWsAux cs []
    else splitWsAux cs (c :: acc)

/-- Python `str.split()`: split on whitespace, dropping empty tokens. -/
def pySplit (s : String) : List String :=
  (splitWsAux s.data []).map String.mk

/-- Python `set(s.split())`: the set of whitespace tokens of a string. -/
def wordSet (s : String) : Finset String :=
  (pySplit s).toFinset

/-! ## Knowledge data model (`src/knowledge/schemas.py`) -/

/-- JSON values, for the loader's input and the opaque `metadata`
pass-through fields. -/
inductive Json where
  | null
  | bool (b : Bool)
  | num (n : Int)
  | str (s : String)
  | arr (elems : List Json)
  | obj (fields : List (String × Json))

/-- `KnowledgeEntry` from `src/knowledge/schemas.py`: a single Q&A record. -/
structure KnowledgeEntry where
  question : String
  answer : String
  category : Option String := none
  language : Option String := none
  keywords : List String := []
  metadata : List (String × Json) := []

/-- `KnowledgeBase` from `src/knowledge/schemas.py`. -/
structure KnowledgeBase where
  entries : List KnowledgeEntry
  metadata : List (String × Json) := []

/-! ## Relevance scorer (`EnhancedRAGSearch.search`, scoring part,
`src/knowledge/rag_search.py` lines 75-121) -/

/-- Contribution of the question-match branches (steps 1-3 of the scorer):
exact match 100, question-contains-query 50, query-contains-question 40. -/
def questionMatchScore (ql questionLower : String) : ℚ :=
  if ql = questionLower then 100
  else if containsStr questionLower ql then 50
  else if containsStr ql questionLower then 40
  else 0

/-- Contribution of one keyword (step 4): 30 for equality with the
lower-cased query, else 15 for being a substring of it. -/
def keywordScore (ql kw : String) : ℚ :=
  if lowerStr kw = ql then 30
  else if containsStr ql (lowerStr kw) then 15
  else 0

/-- Jaccard word-overlap contribution (step 5), guarded on a non-empty
intersection exactly as the source's `if common_words:`. -/
def overlapScore (qWords eWords : Finset String) : ℚ :=
  if qWords ∩ eWords = ∅ then 0
  else ((qWords ∩ eWords).card : ℚ) / ((qWords ∪ eWords).card : ℚ) * 20

/-- Total keyword contribution (step 4's loop over `entry.keywords`). -/
def keywordScoreSum (ql : String) (kws : List String) : ℚ :=
  (kws.map (fun kw => keywordScore ql kw)).sum

/-- Category boost (step 6) as the source computes it:
`if entry.category and entry.category.lower() in query_lower` — Python
truthiness makes an empty-string category falsy, so it gets no boost. -/
def categoryScore (ql : String) (cat : Option String) : ℚ :=
  match cat with
  | some c => if c ≠ "" ∧ containsStr ql (lowerStr c) then 10 else 0
  | none => 0

/-- Answer-overlap contribution (step 7), guarded on a non-empty
overlap exactly as the source's `if answer_overlap:`. -/
def answerScore (qWords aWords : Finset String) : ℚ :=
  if qWords ∩ aWords = ∅ then 0 else ((qWords ∩ aWords).card : ℚ) * 2

/-- The un-clamped sum of the seven contributions computed by
`EnhancedRAGSearch.search` for one entry
(`src/knowledge/rag_search.py` lines 80-118). -/
def scoreTotal (query : String) (e : KnowledgeEntry) : ℚ :=
  questionMatchScore (lowerStr query) (lowerStr e.question)
    + keywordScoreSum (lowerStr query) e.keywords
    + overlapScore (wordSet (lowerStr query)) (wordSet (lowerStr e.question))
    + categoryScore (lowerStr query) e.category
    + answerScore (wordSet (lowerStr query)) (wordSet (lowerStr e.answer))

/-- `score` as computed by `EnhancedRAGSearch.search` for one entry
(lines 80-121): the summed contributions, normalised by
`score = min(score, 100.0)`, written out as a conditional. -/
def score (query : String) (e : KnowledgeEntry) : ℚ :=
  if scoreTotal query e ≤ 100 then scoreTotal query e else 100

/-! ## The relevance score described by the specification (§4.3)

`specScore` is written from the specification's own words, to be compared
with `score` (which is translated from the source).  The spec differs in
two visible points: its category boost fires whenever `category` "is
present" (any `some` value), and its final step clamps to the closed
interval `[0, 100]` rather than only from above. -/

/-- Category boost as §4.3 words it: "if `category` is present and its
lower-cased form appears as a substring of the lower-cased query". -/
def specCategoryScore (ql : String) (cat : Option String) : ℚ :=
  match cat with
  | some c => if containsStr ql (lowerStr c) then 10 else 0
  | none => 0

/-- Answer overlap as §4.3 words it: "Add `2 × |Q∩A|`" (no guard). -/
def specAnswerScore (qWords aWords : Finset String) : ℚ :=
  ((qWords ∩ aWords).card : ℚ) * 2

/-- "Clamp total to the closed interval [0, 100]" (§4.3 step 8). -/
def specClamp (t : ℚ) : ℚ :=
  if t < 0 then 0 else if t ≤ 100 then t else 100

/-- The un-clamped §4.3 total, following the spec's words step by step
(steps 1-5 read identically to the source and share its components). -/
def specScoreTotal (query : String) (e : KnowledgeEntry) : ℚ :=
  questionMatchScore (lowerStr query) (lowerStr e.question)
    + keywordScoreSum (lowerStr query) e.keywords
    + overlapScore (wordSet (lowerStr query)) (wordSet (lowerStr e.question))
    + specCategoryScore (lowerStr query) e.category
    + specAnswerScore (wordSet (lowerStr query)) (wordSet (lowerStr e.answer))

/-- The §4.3 reference score. -/
def specScore (query : String) (e : KnowledgeEntry) : ℚ :=
  specClamp (specScoreTotal query e)

/-- The §4.3 total amended at its single point of divergence from the
source: the category boost additionally requires the category string to
be non-empty (Python's `if entry.category and ...` treats the empty
string as falsy). -/
def specScoreAmendedTotal (query : String) (e : KnowledgeEntry) : ℚ :=
  questionMatchScore (lowerStr query) (lowerStr e.question)
    + keywordScoreSum (lowerStr query) e.keywords
    + overlapScore (wordSet (lowerStr query)) (wordSet (lowerStr e.question))
    + categoryScore (lowerStr query) e.category
    + specAnswerScore (wordSet (lowerStr query)) (wordSet (lowerStr e.answer))

/-- The amended §4.3 reference score. -/
def specScoreAmended (query : String) (e : KnowledgeEntry) : ℚ :=
  specClamp (specScoreAmendedTotal query e)

/-! ## Retrieval engine (`EnhancedRAGSearch.search`,
`src/knowledge/rag_search.py` lines 50-139) -/

/-- The language filter of `search` (line 77):
`if language and entry.language and entry.language != language: continue`.
Python truthiness: an empty-string language (on either side) disables the
filter. -/
def skipEntry (language : Option String) (e : KnowledgeEntry) : Bool :=
  match language, e.language with
  | some l, some el => l ≠ "" && el ≠ "" && el ≠ l
  | _, _ => false

/-- Per-entry step of `search`'s scoring loop: skip language-filtered
entries, keep `(score, entry)` pairs whose score reaches `min_score`
(lines 75-124). -/
def scoreFilter (query : String) (language : Option String) (minScore : ℚ)
    (e : KnowledgeEntry) : Option (ℚ × KnowledgeEntry) :=
  if skipEntry language e then none
  else if minScore ≤ score query e then some (score query e, e) else none

/-- Stable descending insertion by score: the new pair goes after every
strictly greater pair and before every other one.  This is the unique
stable descending order, hence a faithful model of Python's
`scored_entries.sort(key=lambda x: x[0], reverse=True)` (line 127). -/
def insertScoredDesc (x : ℚ × KnowledgeEntry) :
    List (ℚ × KnowledgeEntry) → List (ℚ × KnowledgeEntry)
  | [] => [x]
  | y :: ys => if x.1 < y.1 then y :: insertScoredDesc x ys else x :: y :: ys

/-- Stable descending sort by score (Python's stable `list.sort` with
`reverse=True`). -/
def sortScoredDesc : List (ℚ × KnowledgeEntry) → List (ℚ × KnowledgeEntry)
  | [] => []
  | x :: xs => insertScoredDesc x (sortScoredDesc xs)

/-- `EnhancedRAGSearch.search` (lines 50-139): score all entries, keep
those at or above `min_score`, sort stably by descending score, return
the first `limit` entries. -/
def search (kb : KnowledgeBase) (query : String) (language : Option String)
    (limit : Nat) (minScore : ℚ) : List KnowledgeEntry :=
  let scored := kb.entries.filterMap (scoreFilter query language minScore)
  ((sortScoredDesc scored).take limit).map (fun p => p.2)

/-- First entry of the spec's §8 end-to-end example. -/
def emergencyEntry : KnowledgeEntry :=
  { question := "What is the emergency number?", answer := "1912",
    keywords := ["emergency", "helpline"] }

/-- Second entry of the spec's §8 end-to-end example. -/
def billEntry : KnowledgeEntry :=
  { question := "How do I pay my bill?",
    answer := "Use the app or visit the office.",
    keywords := ["bill", "payment"] }

/-- The spec's §8 two-entry example knowledge base. -/
def exampleKB : KnowledgeBase := ⟨[emergencyEntry, billEntry], []⟩

/-! ## Knowledge-base loader (`KnowledgeBaseLoader.load`,
`src/knowledge/loader.py` lines 23-69) -/

/-- What the loader finds at its file path: no file, a file that is not
valid JSON, or a parsed JSON document. -/
inductive LoadInput where
  | absent
  | unparsable
  | parsed (j : Json)

/-- First value bound to a key in a JSON object (`data['k']` / `.get`). -/
def getField (fields : List (String × Json)) (k : String) : Option Json :=
  (fields.find? (fun p => p.1 == k)).map (fun p => p.2)

/-- Pydantic validation of a `str` field. -/
def asStr : Json → Except Unit String
  | .str s => .ok s
  | _ => .error ()

/-- Pydantic validation of an `Optional[str]` field (absent or `null`
become `None`). -/
def asOptStr : Option Json → Except Unit (Option String)
  | none => .ok none
  | some .null => .ok none
  | some (.str s) => .ok (some s)
  | some _ => .error ()

/-- Pydantic validation of a `List[str]` field with default `[]`. -/
def asStrList : Option Json → Except Unit (List String)
  | none => .ok []
  | some (.arr xs) => xs.mapM asStr
  | some _ => .error ()

/-- Pydantic validation of a `Dict[str, Any]` field with default `{}`. -/
def asMeta : Option Json → Except Unit (List (String × Json))
  | none => .ok []
  | some (.obj fs) => .ok fs
  | some _ => .error ()

/-- Pydantic validation of a required `str` field. -/
def reqStr (fields : List (String × Json)) (k : String) : Except Unit String :=
  match getField fields k with
  | some v => asStr v
  | none => .error ()

/-- Pydantic validation of the fields of one entry record. -/
def parseEntryFields (fields : List (String × Json)) :
    Except Unit KnowledgeEntry := do
  let q ← reqStr fields "question"
  let a ← reqStr fields "answer"
  let c ← asOptStr (getField fields "category")
  let lang ← asOptStr (getField fields "language")
  let kws ← asStrList (getField fields "keywords")
  let md ← asMeta (getField fields "metadata")
  .ok ⟨q, a, c, lang, kws, md⟩

/-- `KnowledgeEntry(**item)`: pydantic construction of one entry record;
any malformed field or non-object record raises (modelled as
`Except.error`). -/
def parseEntry : Json → Except Unit KnowledgeEntry
  | .obj fields => parseEntryFields fields
  | _ => .error ()

/-- The entry-collection branch of `load` (lines 44-55): a JSON array is
a list of entry records; an object with an `entries` key wraps such a
list; any other object is a single bare entry; any other document yields
no entries. -/
def parseTop : Json → Except Unit (List KnowledgeEntry)
  | .arr items => items.mapM parseEntry
  | .obj fields =>
    match getField fields "entries" with
    | some (.arr items) => items.mapM parseEntry
    | some _ => .error ()
    | none => (parseEntry (.obj fields)).map (fun e => [e])
  | _ => .ok []

/-- Line 57 plus the `KnowledgeBase` construction's own validation:
`metadata = data.get('metadata', {}) if isinstance(data, dict) else {}`,
and pydantic rejects a non-dict value. -/
def parseTopMeta : Json → Except Unit (List (String × Json))
  | .obj fields => asMeta (getField fields "metadata")
  | _ => .ok []

/-- The fallible body of `load` before its `except` handlers. -/
def loadParsed (j : Json) : Except Unit KnowledgeBase := do
  let es ← parseTop j
  let md ← parseTopMeta j
  .ok ⟨es, md⟩

/-- `KnowledgeBaseLoader.load` (lines 23-69): absent file and every
raised error are turned into an empty `KnowledgeBase`. -/
def load : LoadInput → KnowledgeBase
  | .absent => ⟨[], []⟩
  | .unparsable => ⟨[], []⟩
  | .parsed j =>
    match loadParsed j with
    | .ok kb => kb
    | .error _ => ⟨[], []⟩

/-- Whether the fallible body of `load` succeeds on a parsed document. -/
def loadOk (j : Json) : Bool :=
  match loadParsed j with
  | .ok _ => true
  | .error _ => false

/-- A malformed record: its `question` field is a number, not a string
(pydantic validation fails). -/
def badEntryJson : Json := .obj [("question", .num 1)]

/-! ## Call sessions (`src/models/call_session.py`) and their lifecycle
(`src/pipeline/runner.py`, `src/api/routes/voice.py`,
`src/api/routes/websocket.py`)

Timestamps are tick counts (`Nat`); `total_duration` is the signed
difference of two ticks. -/

/-- `CallState` from `src/models/call_session.py`. -/
inductive CallState where
  | initiated
  | languageSelection
  | active
  | ended
  | error
deriving DecidableEq

/-- `CallSession` from `src/models/call_session.py`; `metadata` is kept
as a string-keyed association list since only string values occur. -/
structure CallSession where
  call_sid : String
  stream_sid : Option String := none
  language : Option String := none
  state : CallState := .initiated
  started_at : Nat
  ended_at : Option Nat := none
  query_count : Nat := 0
  failed_stt_count : Nat := 0
  total_duration : Option Int := none
  stt_calls : Nat := 0
  llm_calls : Nat := 0
  tts_calls : Nat := 0
  interruptions : Nat := 0
  metadata : List (String × String) := []
deriving DecidableEq

/-- Session created by `/voice/incoming` (`voice.py` lines 30-34). -/
def createIncoming (callSid frm toNum : String) (now : Nat) : CallSession :=
  { call_sid := callSid, state := .languageSelection, started_at := now,
    metadata := [("from", frm), ("to", toNum)] }

/-- Session created by `/voice/outbound` (`voice.py` lines 144-149). -/
def createOutbound (callSid toNum lang : String) (now : Nat) : CallSession :=
  { call_sid := callSid, language := some lang, state := .active,
    started_at := now, metadata := [("to", toNum), ("direction", "outbound")] }

/-- Session created at the top of `run_bot` (`runner.py` lines 42-47);
`started_at` and the local `start_time` are both `datetime.utcnow()`
taken at creation, merged here into the single tick `now`. -/
def mkRunSession (callSid streamSid lang : String) (now : Nat) : CallSession :=
  { call_sid := callSid, stream_sid := some streamSid,
    language := some lang, state := .active, started_at := now }

/-- Normal-completion end path of `run_bot` (lines 86-88). -/
def endCompleted (now startTime : Nat) (s : CallSession) : CallSession :=
  { s with state := .ended, ended_at := some now,
           total_duration := some ((now : Int) - (startTime : Int)) }

/-- Cancellation-handler end path of `run_bot` (lines 91-96): sets state
and `ended_at` only (the duration is left to the `finally` block). -/
def endCancelled (now : Nat) (s : CallSession) : CallSession :=
  { s with state := .ended, ended_at := some now }

/-- Error-handler end path of `run_bot` (lines 98-103). -/
def endErrored (now : Nat) (msg : String) (s : CallSession) : CallSession :=
  { s with state := .error, ended_at := some now,
           metadata := ("error", msg) :: s.metadata }

/-- The `finally` block of `run_bot` (lines 114-116): recompute
`total_duration` from the current `ended_at` whenever it is set. -/
def finallyDuration (startTime : Nat) (s : CallSession) : CallSession :=
  match s.ended_at with
  | some te => { s with total_duration := some ((te : Int) - (startTime : Int)) }
  | none => s

/-- Which way `run_bot`'s pipeline run finished. -/
inductive RunOutcome where
  | completed
  | cancelled
  | errored (msg : String)

/-- `run_bot` (`runner.py` lines 17-120) as a state transformer on the
session it creates: exactly one end path runs, then the `finally`
block. -/
def runBot (callSid streamSid lang : String) (startTime : Nat)
    (outcome : RunOutcome) (endTime : Nat) : CallSession :=
  let s := mkRunSession callSid streamSid lang startTime
  let s := match outcome with
    | .completed => endCompleted endTime startTime s
    | .cancelled => endCancelled endTime s
    | .errored msg => endErrored endTime msg s
  finallyDuration startTime s

/-- The completion write of `handle_media_stream`
(`websocket.py` lines 155-156): sets state and `ended_at` but not
`total_duration`, and no `finally` recomputation follows it. -/
def wsEndCompleted (now : Nat) (s : CallSession) : CallSession :=
  { s with state := .ended, ended_at := some now }

/-- The §4.5/§3 session invariant under scrutiny in the claims. -/
def sessionInvariant (s : CallSession) : Prop :=
  (s.ended_at.isSome ↔ (s.state = .ended ∨ s.state = .error)) ∧
  (s.total_duration.isSome ↔ s.ended_at.isSome)

instance (s : CallSession) : Decidable (sessionInvariant s) := by
  unfold sessionInvariant; infer_instance

/-! ## Session registry (`SessionStore`, in-memory backend,
`src/services/session_store.py`)

The Python registry is a mutable `dict`; `get_all` returns
`self._memory_store.copy()`, a distinct dict object.  To make that
aliasing behaviour expressible, dicts live in an explicit heap of
objects addressed by references. -/

/-- A Python dict keyed by call SID, as an association list with unique
keys (first binding wins on lookup). -/
def SessionDict := List (String × CallSession)
deriving DecidableEq

/-- Dict lookup. -/
def dictGet (d : SessionDict) (sid : String) : Option CallSession :=
  (List.find? (fun p => p.1 == sid) d).map (fun p => p.2)

/-- Dict update `d[sid] = s` (replace in place, or append). -/
def dictSet (d : SessionDict) (sid : String) (s : CallSession) : SessionDict :=
  match d with
  | [] => [(sid, s)]
  | p :: rest =>
    if p.1 == sid then (sid, s) :: rest else p :: dictSet rest sid s

/-- Dict removal `d.pop(sid, None)`. -/
def dictRemove (d : SessionDict) (sid : String) : SessionDict :=
  match d with
  | [] => []
  | p :: rest => if p.1 == sid then rest else p :: dictRemove rest sid

/-- The heap of dict objects; a reference is an index into it. -/
structure Heap where
  objs : List SessionDict

/-- Dereference (a dangling reference reads as an empty dict). -/
def readRef (h : Heap) (r : Nat) : SessionDict :=
  (h.objs[r]?).getD []

/-- In-place mutation of the dict object behind a reference. -/
def writeRef (h : Heap) (r : Nat) (d : SessionDict) : Heap :=
  ⟨h.objs.set r d⟩

/-- Allocation of a fresh dict object. -/
def allocRef (h : Heap) (d : SessionDict) : Heap × Nat :=
  (⟨h.objs ++ [d]⟩, h.objs.length)

/-- The in-memory `SessionStore`: a heap plus the reference to
`self._memory_store`. -/
structure StoreState where
  heap : Heap
  storeRef : Nat

/-- A freshly constructed store: one empty dict object. -/
def StoreState.init : StoreState := ⟨⟨[[]]⟩, 0⟩

/-- `SessionStore.set` (in-memory branch, line 81):
`self._memory_store[session.call_sid] = session`. -/
def storeSet (st : StoreState) (s : CallSession) : StoreState :=
  { st with heap := (writeRef st.heap st.storeRef
      (dictSet (readRef st.heap st.storeRef) s.call_sid s)) }

/-- `SessionStore.delete` (in-memory branch, line 93):
`self._memory_store.pop(call_sid, None)`. -/
def storeDelete (st : StoreState) (sid : String) : StoreState :=
  { st with heap := (writeRef st.heap st.storeRef
      (dictRemove (readRef st.heap st.storeRef) sid)) }

/-- `SessionStore.get` (in-memory branch, line 67). -/
def storeGet (st : StoreState) (sid : String) : Option CallSession :=
  dictGet (readRef st.heap st.storeRef) sid

/-- `SessionStore.get_all` (in-memory branch, line 111):
`return self._memory_store.copy()` — allocates a fresh dict object with
the current contents and returns a reference to it. -/
def storeGetAll (st : StoreState) : StoreState × Nat :=
  let (h, r) := allocRef st.heap (readRef st.heap st.storeRef)
  ({ st with heap := h }, r)

/-- A mutation on the registry arriving after the snapshot was taken. -/
inductive StoreOp where
  | set (s : CallSession)
  | del (sid : String)

/-- Apply one registry mutation. -/
def applyOp (st : StoreState) : StoreOp → StoreState
  | .set s => storeSet st s
  | .del sid => storeDelete st sid

/-- Apply a sequence of registry mutations, oldest first. -/
def applyOps (st : StoreState) : List StoreOp → StoreState
  | [] => st
  | op :: ops => applyOps (applyOp st op) ops

/-! # Theorems

## Basic facts about the scorer -/

theorem questionMatchScore_nonneg (a b : String) :
    0 ≤ questionMatchScore a b := by
  unfold questionMatchScore
  split_ifs <;> norm_num

theorem questionMatchScore_of_eq {a b : String} (h : a = b) :
    questionMatchScore a b = 100 := by
  unfold questionMatchScore
  rw [if_pos h]

theorem keywordScore_nonneg (ql kw : String) : 0 ≤ keywordScore ql kw := by
  unfold keywordScore
  split_ifs <;> norm_num

theorem keywordScoreSum_nonneg (ql : String) (kws : List String) :
    0 ≤ keywordScoreSum ql kws := by
  refine List.sum_nonneg ?_
  intro x hx
  obtain ⟨kw, _, rfl⟩ := List.mem_map.mp hx
  exact keywordScore_nonneg ql kw

theorem overlapScore_nonneg (a b : Finset String) : 0 ≤ overlapScore a b := by
  unfold overlapScore
  split_ifs with h
  · norm_num
  · positivity

theorem categoryScore_nonneg (ql : String) (cat : Option String) :
    0 ≤ categoryScore ql cat := by
  unfold categoryScore
  cases cat with
  | none => norm_num
  | some c =>
    dsimp only
    split_ifs <;> norm_num

theorem answerScore_nonneg (a b : Finset String) : 0 ≤ answerScore a b := by
  unfold answerScore
  split_ifs <;> positivity

theorem scoreTotal_nonneg (q : String) (e : KnowledgeEntry) :
    0 ≤ scoreTotal q e := by
  unfold scoreTotal
  have h1 := questionMatchScore_nonneg (lowerStr q) (lowerStr e.question)
  have h2 := keywordScoreSum_nonneg (lowerStr q) e.keywords
  have h3 := overlapScore_nonneg (wordSet (lowerStr q))
    (wordSet (lowerStr e.question))
  have h4 := categoryScore_nonneg (lowerStr q) e.category
  have h5 := answerScore_nonneg (wordSet (lowerStr q))
    (wordSet (lowerStr e.answer))
  linarith

theorem score_nonneg (q : String) (e : KnowledgeEntry) : 0 ≤ score q e := by
  unfold score
  split_ifs with h
  · exact scoreTotal_nonneg q e
  · norm_num

/-- The guarded answer-overlap step computes the same value as the
unguarded `2 × |Q∩A|` (an empty set contributes `0` either way). -/
theorem answerScore_eq_specAnswerScore (a b : Finset String) :
    answerScore a b = specAnswerScore a b := by
  unfold answerScore specAnswerScore
  split_ifs with h
  · rw [h]
    simp
  · rfl

theorem specClamp_of_nonneg {t : ℚ} (h : 0 ≤ t) :
    specClamp t = if t ≤ 100 then t else 100 := by
  unfold specClamp
  rw [if_neg (not_lt.mpr h)]

theorem scoreTotal_eq_specScoreAmendedTotal (q : String) (e : KnowledgeEntry) :
    scoreTotal q e = specScoreAmendedTotal q e := by
  unfold scoreTotal specScoreAmendedTotal
  rw [answerScore_eq_specAnswerScore]

/-! ## C1: the scorer versus the §4.3 reference description -/

/-- C1 (amended): for every query and entry, the source's `score` equals
the §4.3 reference value amended in one point: the category boost
requires the category to be present *and non-empty* (Python truthiness),
not merely present. -/
theorem score_eq_specScoreAmended (q : String) (e : KnowledgeEntry) :
    score q e = specScoreAmended q e := by
  unfold score specScoreAmended
  rw [← scoreTotal_eq_specScoreAmendedTotal q e,
    specClamp_of_nonneg (scoreTotal_nonneg q e)]

/-! ## C2: exact-match dominance -/

/-- C2: whenever the lower-cased query equals the lower-cased question,
the computed score is exactly 100 — the exact-match branch contributes
100, every later contribution is non-negative, and the final
`min(score, 100.0)` clamps the sum back to exactly 100. -/
theorem score_exact_match_eq_100 (q : String) (e : KnowledgeEntry)
    (h : lowerStr q = lowerStr e.question) : score q e = 100 := by
  have h100 : (100 : ℚ) ≤ scoreTotal q e := by
    unfold scoreTotal
    rw [questionMatchScore_of_eq h]
    have h2 := keywordScoreSum_nonneg (lowerStr q) e.keywords
    have h3 := overlapScore_nonneg (wordSet (lowerStr q))
      (wordSet (lowerStr e.question))
    have h4 := categoryScore_nonneg (lowerStr q) e.category
    have h5 := answerScore_nonneg (wordSet (lowerStr q))
      (wordSet (lowerStr e.answer))
    linarith
  unfold score
  split_ifs with hle
  · linarith
  · rfl

/-! ## Facts about the stable descending sort and the search pipeline -/

theorem mem_insertScoredDesc {x y : ℚ × KnowledgeEntry}
    {l : List (ℚ × KnowledgeEntry)} :
    y ∈ insertScoredDesc x l ↔ y = x ∨ y ∈ l := by
  induction l with
  | nil => simp [insertScoredDesc]
  | cons z zs ih =>
    unfold insertScoredDesc
    split_ifs with h
    · simp only [List.mem_cons, ih]
      tauto
    · simp only [List.mem_cons]

theorem mem_sortScoredDesc {y : ℚ × KnowledgeEntry}
    {l : List (ℚ × KnowledgeEntry)} :
    y ∈ sortScoredDesc l ↔ y ∈ l := by
  induction l with
  | nil => simp [sortScoredDesc]
  | cons z zs ih =>
    unfold sortScoredDesc
    rw [mem_insertScoredDesc]
    simp [ih]

theorem pairwise_insertScoredDesc {x : ℚ × KnowledgeEntry}
    {l : List (ℚ × KnowledgeEntry)}
    (h : l.Pairwise (fun a b => b.1 ≤ a.1)) :
    (insertScoredDesc x l).Pairwise (fun a b => b.1 ≤ a.1) := by
  induction l with
  | nil => simp [insertScoredDesc]
  | cons z zs ih =>
    rw [List.pairwise_cons] at h
    obtain ⟨hz, hzs⟩ := h
    unfold insertScoredDesc
    split_ifs with hlt
    · rw [List.pairwise_cons]
      refine ⟨?_, ih hzs⟩
      intro a ha
      rcases mem_insertScoredDesc.mp ha with rfl | ha'
      · exact le_of_lt hlt
      · exact hz a ha'
    · rw [List.pairwise_cons]
      refine ⟨?_, List.Pairwise.cons hz hzs⟩
      intro a ha
      rcases List.mem_cons.mp ha with rfl | ha'
      · exact not_lt.mp hlt
      · exact le_trans (hz a ha') (not_lt.mp hlt)

/-- The sorted list is descending in the score component. -/
theorem pairwise_sortScoredDesc (l : List (ℚ × KnowledgeEntry)) :
    (sortScoredDesc l).Pairwise (fun a b => b.1 ≤ a.1) := by
  induction l with
  | nil => simp [sortScoredDesc]
  | cons x xs ih => exact pairwise_insertScoredDesc ih

/-- Membership test for one exact score value. -/
def keyEq (s : ℚ) (p : ℚ × KnowledgeEntry) : Bool :=
  decide (p.1 = s)

theorem filter_keyEq_insertScoredDesc (s : ℚ) (x : ℚ × KnowledgeEntry)
    (l : List (ℚ × KnowledgeEntry)) :
    (insertScoredDesc x l).filter (keyEq s) = (x :: l).filter (keyEq s) := by
  induction l with
  | nil => rfl
  | cons y ys ih =>
    unfold insertScoredDesc
    split_ifs with hlt
    · simp only [List.filter_cons, ih]
      cases hx : keyEq s x with
      | false => simp [hx]
      | true =>
        have hxs : x.1 = s := of_decide_eq_true hx
        have hy : keyEq s y = false := by
          unfold keyEq
          rw [decide_eq_false_iff_not]
          intro hys
          rw [hxs, hys] at hlt
          exact lt_irrefl s hlt
        simp [hx, hy]
    · rfl

/-- Stability: sorting does not reorder the sub-sequence of pairs whose
score equals any fixed value `s`. -/
theorem filter_keyEq_sortScoredDesc (s : ℚ) (l : List (ℚ × KnowledgeEntry)) :
    (sortScoredDesc l).filter (keyEq s) = l.filter (keyEq s) := by
  induction l with
  | nil => rfl
  | cons x xs ih =>
    unfold sortScoredDesc
    rw [filter_keyEq_insertScoredDesc]
    simp [List.filter_cons, ih]

/-- Inversion of the per-entry scoring step (`scoreFilter`). -/
theorem scoreFilter_eq_some {q : String} {lang : Option String} {m : ℚ}
    {e : KnowledgeEntry} {p : ℚ × KnowledgeEntry}
    (h : scoreFilter q lang m e = some p) :
    p.1 = score q e ∧ m ≤ p.1 ∧ p.2 = e := by
  unfold scoreFilter at h
  by_cases h1 : skipEntry lang e = true
  · rw [if_pos h1] at h
    exact Option.noConfusion h
  · rw [if_neg h1] at h
    by_cases h2 : m ≤ score q e
    · rw [if_pos h2] at h
      injection h with h'
      subst h'
      exact ⟨rfl, h2, rfl⟩
    · rw [if_neg h2] at h
      exact Option.noConfusion h

/-- The entry components of the scored pairs form a sub-sequence of the
knowledge base's entries. -/
theorem map_snd_filterMap_sublist (q : String) (lang : Option String)
    (m : ℚ) (entries : List KnowledgeEntry) :
    ((entries.filterMap (scoreFilter q lang m)).map (fun p => p.2)).Sublist
      entries := by
  induction entries with
  | nil => simp
  | cons e es ih =>
    rw [List.filterMap_cons]
    cases hf : scoreFilter q lang m e with
    | none => exact ih.cons e
    | some p =>
      rw [List.map_cons, (scoreFilter_eq_some hf).2.2]
      exact ih.cons₂ e

/-- Every pair reaching the sort stage carries the score of its own
entry, at or above the threshold. -/
theorem mem_scored_inv {kb : KnowledgeBase} {q : String}
    {lang : Option String} {m : ℚ} {p : ℚ × KnowledgeEntry}
    (hp : p ∈ sortScoredDesc (kb.entries.filterMap (scoreFilter q lang m))) :
    p.1 = score q p.2 ∧ m ≤ p.1 := by
  have hp' := mem_sortScoredDesc.mp hp
  obtain ⟨a, _, hfa⟩ := List.mem_filterMap.mp hp'
  obtain ⟨h1, h2, h3⟩ := scoreFilter_eq_some hfa
  rw [← h3] at h1
  exact ⟨h1, h2⟩

/-! ## C3: result limit and minimum-score threshold -/

/-- C3: `search` returns at most `limit` entries, and every returned
entry scores at least `minScore` against the query. -/
theorem search_le_limit_and_minScore (kb : KnowledgeBase) (q : String)
    (lang : Option String) (k : Nat) (m : ℚ) :
    (search kb q lang k m).length ≤ k ∧
    ∀ e, e ∈ search kb q lang k m → m ≤ score q e := by
  constructor
  · unfold search
    rw [List.length_map]
    exact List.length_take_le k _
  · intro e he
    unfold search at he
    obtain ⟨p, hp, rfl⟩ := List.mem_map.mp he
    have hp' := List.mem_of_mem_take hp
    obtain ⟨h1, h2⟩ := mem_scored_inv hp'
    rw [← h1]
    exact h2

/-! ## C4: descending order and stable ranking -/

/-- C4: the entries returned by `search` are in descending score order,
and for every score value `s` the returned entries scoring `s` form a
sub-sequence of the knowledge base's entry sequence — equal-score
entries keep their original relative order (stability). -/
theorem search_sorted_and_stable (kb : KnowledgeBase) (q : String)
    (lang : Option String) (k : Nat) (m : ℚ) :
    (search kb q lang k m).Pairwise (fun e1 e2 => score q e2 ≤ score q e1) ∧
    ∀ s : ℚ, ((search kb q lang k m).filter
      (fun e => decide (score q e = s))).Sublist kb.entries := by
  constructor
  · unfold search
    rw [List.pairwise_map]
    have hsorted := (pairwise_sortScoredDesc
      (kb.entries.filterMap (scoreFilter q lang m))).sublist
      (List.take_sublist k _)
    have hmem : ∀ p ∈ (sortScoredDesc
        (kb.entries.filterMap (scoreFilter q lang m))).take k,
        p.1 = score q p.2 := by
      intro p hp
      exact (mem_scored_inv (List.mem_of_mem_take hp)).1
    refine hsorted.imp_of_mem ?_
    intro a b ha hb hle
    rw [← hmem a ha, ← hmem b hb]
    exact hle
  · intro s
    unfold search
    rw [List.filter_map]
    have hcongr : ((sortScoredDesc
        (kb.entries.filterMap (scoreFilter q lang m))).take k).filter
          ((fun e => decide (score q e = s)) ∘ (fun p => p.2))
        = ((sortScoredDesc
        (kb.entries.filterMap (scoreFilter q lang m))).take k).filter
          (keyEq s) := by
      refine List.filter_congr ?_
      intro p hp
      have h1 := (mem_scored_inv (List.mem_of_mem_take hp)).1
      unfold keyEq
      simp only [Function.comp_apply]
      rw [h1]
    rw [hcongr]
    have htake : (((sortScoredDesc
        (kb.entries.filterMap (scoreFilter q lang m))).take k).filter
          (keyEq s)).Sublist ((sortScoredDesc
        (kb.entries.filterMap (scoreFilter q lang m))).filter (keyEq s)) :=
      (List.take_sublist k _).filter (keyEq s)
    rw [filter_keyEq_sortScoredDesc] at htake
    have hchain : (((kb.entries.filterMap (scoreFilter q lang m)).filter
        (keyEq s)).map (fun p => p.2)).Sublist
        ((kb.entries.filterMap (scoreFilter q lang m)).map (fun p => p.2)) :=
      (List.filter_sublist _).map _
    exact ((htake.map _).trans hchain).trans
      (map_snd_filterMap_sublist q lang m kb.entries)

/-! ## C8: empty and no-match queries -/

/-- C8 (amended): `search` is total (never raises), and a query that
matches no entry — every entry scores strictly below `minScore` —
returns the empty sequence, for every knowledge base, language and
limit.  (The original claim's empty-query half fails: the empty string
is a substring of every question, see the counterexample.) -/
theorem search_no_match_empty (kb : KnowledgeBase) (q : String)
    (lang : Option String) (k : Nat) (m : ℚ)
    (h : ∀ e ∈ kb.entries, score q e < m) :
    search kb q lang k m = [] := by
  unfold search
  have hnil : kb.entries.filterMap (scoreFilter q lang m) = [] := by
    rw [List.filterMap_eq_nil_iff]
    intro e he
    unfold scoreFilter
    split_ifs with h1 h2
    · rfl
    · exact absurd h2 (not_le.mpr (h e he))
    · rfl
  rw [hnil]
  simp [sortScoredDesc]

section ConcreteEvaluation
/- `Rat.add` & co. are `@[irreducible]` in Batteries, which blocks the
`decide`-based evaluation of concrete scores; make them transparent for
the concrete computations in this development. -/
set_option allowUnsafeReducibility true
attribute [local semireducible] Rat.add Rat.mul Rat.div Rat.inv Rat.sub Rat.neg

example : score "what is the emergency number"
    { question := "What is the emergency number?", answer := "1912",
      keywords := ["emergency", "helpline"] } = 50 + 15 + 20 * 4 / 6 := by
  decide

/-- C1 (counterexample): for the entry with question `"y"`, answer
`"y"` and category `""` and the query `"x"`, the source computes score
`0` but the §4.3 reference value is `10`: the empty-string category is
"present" and is a substring of the query, so §4.3 grants the category
boost, while Python's truthiness test skips it. -/
theorem score_ne_specScore_at_empty_category :
    score "x" { question := "y", answer := "y", category := some "" } = 0 ∧
    specScore "x" { question := "y", answer := "y", category := some "" } = 10 ∧
    score "x" { question := "y", answer := "y", category := some "" } ≠
      specScore "x" { question := "y", answer := "y", category := some "" } := by
  refine ⟨by decide, by decide, ?_⟩
  intro h
  rw [show (score "x" { question := "y", answer := "y", category := some "" }) = 0
    from by decide] at h
  rw [show (specScore "x" { question := "y", answer := "y", category := some "" }) = 10
    from by decide] at h
  exact absurd h (by norm_num)

/-- C2 (witness): the spec's own example — query `"power outage"`
against question `"Power Outage"` scores exactly 100. -/
theorem score_exact_match_eq_100_witness :
    lowerStr "power outage" = lowerStr "Power Outage" ∧
    score "power outage"
      { question := "Power Outage", answer := "Crews are on the way.",
        keywords := ["power", "outage"] } = 100 :=
  ⟨by decide, score_exact_match_eq_100 "power outage"
    { question := "Power Outage", answer := "Crews are on the way.",
      keywords := ["power", "outage"] } (by decide)⟩

/-- C3 (witness): on the spec's §8 example knowledge base, searching for
`"what is the emergency number"` with limit 3 and minimum score 10
returns exactly the emergency entry, and the theorem instantiated there
certifies its score is at least 10. -/
theorem search_le_limit_and_minScore_witness :
    10 ≤ score "what is the emergency number" emergencyEntry := by
  have hmem : emergencyEntry ∈
      search exampleKB "what is the emergency number" none 3 10 := by
    have h : search exampleKB "what is the emergency number" none 3 10
        = [emergencyEntry] := rfl
    rw [h]
    exact List.mem_singleton.mpr rfl
  exact (search_le_limit_and_minScore exampleKB "what is the emergency number"
    none 3 10).2 emergencyEntry hmem

/-- C8 (counterexample): the empty query is not represented as an empty
result — `"" in question` is `True` in Python, so every entry receives
the +50 "question contains query" contribution, and with the default
minimum score 0.1 the §8 example knowledge base returns both entries. -/
theorem search_empty_query_returns_entries :
    search exampleKB "" none 3 (1 / 10) = [emergencyEntry, billEntry] ∧
    search exampleKB "" none 3 (1 / 10) ≠ [] := by
  refine ⟨rfl, ?_⟩
  intro h
  rw [show search exampleKB "" none 3 (1 / 10) = [emergencyEntry, billEntry]
    from rfl] at h
  exact List.cons_ne_nil _ _ h

/-- C8 (witness): the query `"zzz"` scores below 0.1 against both §8
example entries, and the amended theorem instantiated there returns the
empty sequence. -/
theorem search_no_match_empty_witness :
    (∀ e ∈ exampleKB.entries, score "zzz" e < 1 / 10) ∧
    search exampleKB "zzz" none 3 (1 / 10) = [] :=
  ⟨by decide, search_no_match_empty exampleKB "zzz" none 3 (1 / 10) (by decide)⟩

end ConcreteEvaluation

/-! ## C5: is ending a call session idempotent? -/

/-- C5 (counterexample): ending is not guarded.  A session that
completed at tick 5 (with `total_duration = 3`) and is then hit by the
cancellation-handler end path at tick 9 followed by the `finally`
recomputation ends up with `ended_at = 9` and `total_duration = 7`:
the second end overwrote both fields, so the first End does not win. -/
theorem double_end_overwrites :
    (runBot "CA1" "MZ1" "en-IN" 2 .completed 5).ended_at = some 5 ∧
    (runBot "CA1" "MZ1" "en-IN" 2 .completed 5).total_duration = some 3 ∧
    (finallyDuration 2 (endCancelled 9
      (runBot "CA1" "MZ1" "en-IN" 2 .completed 5))).ended_at = some 9 ∧
    (finallyDuration 2 (endCancelled 9
      (runBot "CA1" "MZ1" "en-IN" 2 .completed 5))).total_duration = some 7 ∧
    (finallyDuration 2 (endCancelled 9
        (runBot "CA1" "MZ1" "en-IN" 2 .completed 5))).ended_at ≠
      (runBot "CA1" "MZ1" "en-IN" 2 .completed 5).ended_at := by
  refine ⟨rfl, rfl, rfl, rfl, ?_⟩
  decide

/-- C5 (amended): the end paths write unconditionally, so a further end
path overwrites `ended_at` with its own timestamp (the *last* End wins),
and the `finally` block recomputes `total_duration` from whatever
`ended_at` currently holds.  The only repeated cleanup that actually
occurs inside one `run_bot` execution — the `finally` block running
after the completed path — rewrites `total_duration` with the same
value, leaving the session unchanged. -/
theorem end_paths_last_write_wins (s : CallSession) (t st : Nat)
    (msg : String) :
    (endCompleted t st s).ended_at = some t ∧
    (endCancelled t s).ended_at = some t ∧
    (endErrored t msg s).ended_at = some t ∧
    (wsEndCompleted t s).ended_at = some t ∧
    (finallyDuration st (endCancelled t s)).total_duration
      = some ((t : Int) - (st : Int)) ∧
    finallyDuration st (endCompleted t st s) = endCompleted t st s := by
  exact ⟨rfl, rfl, rfl, rfl, rfl, rfl⟩

/-! ## C6: the session invariant across the lifecycle paths -/

/-- C6: both creation paths and all of `run_bot`'s end paths establish
the invariant "`ended_at` set iff state is Ended/Error, and
`total_duration` set iff `ended_at` set" — but the completion path of
`handle_media_stream` (`websocket.py` lines 155-156) breaks it: it sets
`state = ENDED` and `ended_at` while leaving `total_duration` unset. -/
theorem sessionInvariant_lifecycle_except_ws :
    (∀ sid frm toNum t, sessionInvariant (createIncoming sid frm toNum t)) ∧
    (∀ sid toNum lang t, sessionInvariant (createOutbound sid toNum lang t)) ∧
    (∀ cs ss lang t0 oc te, sessionInvariant (runBot cs ss lang t0 oc te)) ∧
    ¬ sessionInvariant (wsEndCompleted 7 (mkRunSession "CA1" "MZ1" "en-IN" 2)) := by
  refine ⟨?_, ?_, ?_, by decide⟩
  · intro sid frm toNum t
    simp [sessionInvariant, createIncoming]
  · intro sid toNum lang t
    simp [sessionInvariant, createOutbound]
  · intro cs ss lang t0 oc te
    cases oc <;>
      simp [sessionInvariant, runBot, mkRunSession, endCompleted,
        endCancelled, endErrored, finallyDuration]

/-! ## C9: snapshot isolation of the registry's `get_all` -/

theorem applyOp_storeRef (st : StoreState) (op : StoreOp) :
    (applyOp st op).storeRef = st.storeRef := by
  cases op <;> rfl

theorem applyOp_readRef_ne (st : StoreState) (op : StoreOp) {r : Nat}
    (hr : r ≠ st.storeRef) :
    readRef (applyOp st op).heap r = readRef st.heap r := by
  have hget : ∀ d, readRef (writeRef st.heap st.storeRef d) r
      = readRef st.heap r := by
    intro d
    unfold readRef writeRef
    rw [List.getElem?_set_ne (Ne.symm hr)]
  cases op with
  | set s => exact hget _
  | del sid => exact hget _

theorem applyOps_storeRef (ops : List StoreOp) (st : StoreState) :
    (applyOps st ops).storeRef = st.storeRef := by
  induction ops generalizing st with
  | nil => rfl
  | cons op ops ih => rw [applyOps, ih, applyOp_storeRef]

theorem applyOps_readRef_ne (ops : List StoreOp) (st : StoreState) {r : Nat}
    (hr : r ≠ st.storeRef) :
    readRef (applyOps st ops).heap r = readRef st.heap r := by
  induction ops generalizing st with
  | nil => rfl
  | cons op ops ih =>
    rw [applyOps]
    rw [ih (applyOp st op) (by rw [applyOp_storeRef]; exact hr)]
    exact applyOp_readRef_ne st op hr

/-- C9: the mapping handed out by `get_all` is a point-in-time snapshot.
For a well-formed store (the store dict reference is live), the snapshot
object still holds exactly the associations the store held when the
snapshot was taken, after *any* sequence of later `set`/`delete`
operations on the registry. -/
theorem getAll_snapshot_isolated (st : StoreState) (ops : List StoreOp)
    (hwf : st.storeRef < st.heap.objs.length) :
    readRef (applyOps (storeGetAll st).1 ops).heap (storeGetAll st).2
      = readRef st.heap st.storeRef := by
  have hne : (storeGetAll st).2 ≠ (storeGetAll st).1.storeRef := by
    show st.heap.objs.length ≠ st.storeRef
    intro h
    rw [← h] at hwf
    exact lt_irrefl _ hwf
  rw [applyOps_readRef_ne ops _ hne]
  show readRef ⟨st.heap.objs ++ [readRef st.heap st.storeRef]⟩
    st.heap.objs.length = _
  unfold readRef
  rw [List.getElem?_concat_length]
  rfl

/-! ## C7: the loader fails softly -/

/-- C7: `load` is total (it never propagates an exception), and on every
bad source — absent file, invalid JSON, or a document whose records or
metadata fail validation — it returns the empty `KnowledgeBase`. -/
theorem load_bad_input_empty (j : Json) :
    load .absent = ⟨[], []⟩ ∧
    load .unparsable = ⟨[], []⟩ ∧
    (loadOk j = false → load (.parsed j) = ⟨[], []⟩) := by
  refine ⟨rfl, rfl, ?_⟩
  intro h
  unfold loadOk at h
  cases hl : loadParsed j with
  | ok kb =>
    rw [hl] at h
    exact Bool.noConfusion h
  | error e =>
    show (match loadParsed j with
      | .ok kb => kb
      | .error _ => (⟨[], []⟩ : KnowledgeBase)) = ⟨[], []⟩
    rw [hl]

/-- C7 (witness): a document consisting of one record whose `question`
is a number fails validation, and `load` returns the empty base. -/
theorem load_bad_input_empty_witness :
    loadOk badEntryJson = false ∧ load (.parsed badEntryJson) = ⟨[], []⟩ :=
  ⟨rfl, (load_bad_input_empty badEntryJson).2.2 rfl⟩

/-! ## C10: how `metadata` flows through the three document shapes -/

/-- Inversion of one `Except` bind that succeeded. -/
theorem exceptBind_ok {α β : Type} {x : Except Unit α} {f : α → Except Unit β}
    {b : β} (h : (do let a ← x; f a) = .ok b) :
    ∃ a, x = .ok a ∧ f a = .ok b := by
  cases x with
  | ok a => exact ⟨a, rfl, h⟩
  | error e => exact Except.noConfusion h

/-- C10: for a single-bare-entry document (an object without an
`entries` key) the object's `metadata` field is used twice — it becomes
the metadata of the one constructed entry *and* the returned
`KnowledgeBase`'s metadata — while for the JSON-array form the returned
`KnowledgeBase`'s metadata is always empty, whatever metadata the
individual entries carry. -/
theorem load_metadata_flow (fields : List (String × Json))
    (e : KnowledgeEntry) (items : List Json) (es : List KnowledgeEntry)
    (h1 : getField fields "entries" = none)
    (h2 : parseEntry (.obj fields) = .ok e)
    (h3 : items.mapM parseEntry = .ok es) :
    load (.parsed (.obj fields)) = ⟨[e], e.metadata⟩ ∧
    load (.parsed (.arr items)) = ⟨es, []⟩ := by
  constructor
  · have hpe := h2
    have h2' : parseEntryFields fields = .ok e := h2
    unfold parseEntryFields at h2'
    obtain ⟨q, hq, h2'⟩ := exceptBind_ok h2'
    obtain ⟨a, ha, h2'⟩ := exceptBind_ok h2'
    obtain ⟨c, hc, h2'⟩ := exceptBind_ok h2'
    obtain ⟨lg, hlg, h2'⟩ := exceptBind_ok h2'
    obtain ⟨kws, hkws, h2'⟩ := exceptBind_ok h2'
    obtain ⟨md, hmd, h2'⟩ := exceptBind_ok h2'
    injection h2' with h2'
    subst h2'
    have htop : parseTop (.obj fields)
        = .ok [⟨q, a, c, lg, kws, md⟩] := by
      show (match getField fields "entries" with
        | some (.arr items) => items.mapM parseEntry
        | some _ => .error ()
        | none => (parseEntry (.obj fields)).map (fun x => [x]))
          = .ok [⟨q, a, c, lg, kws, md⟩]
      rw [h1, hpe]
      rfl
    have hmeta : parseTopMeta (.obj fields) = .ok md := hmd
    have hlp : loadParsed (.obj fields)
        = .ok ⟨[⟨q, a, c, lg, kws, md⟩], md⟩ := by
      unfold loadParsed
      simp only [htop, hmeta]
      rfl
    show (match loadParsed (.obj fields) with
      | .ok kb => kb
      | .error _ => (⟨[], []⟩ : KnowledgeBase))
        = ⟨[⟨q, a, c, lg, kws, md⟩], md⟩
    rw [hlp]
  · have htop : parseTop (.arr items) = .ok es := h3
    have hlp : loadParsed (.arr items) = .ok ⟨es, []⟩ := by
      unfold loadParsed
      simp only [htop]
      rfl
    show (match loadParsed (.arr items) with
      | .ok kb => kb
      | .error _ => (⟨[], []⟩ : KnowledgeBase)) = ⟨es, []⟩
    rw [hlp]

/-- C10 (witness): a bare-entry object carrying `metadata {v: "1"}`
loads as a one-entry base whose entry metadata and base metadata are
both that mapping; an array whose single record carries `metadata
{k: "2"}` loads with empty base metadata. -/
theorem load_metadata_flow_witness :
    load (.parsed (.obj [("question", .str "q"), ("answer", .str "a"),
        ("metadata", .obj [("v", .str "1")])]))
      = ⟨[⟨"q", "a", none, none, [], [("v", .str "1")]⟩], [("v", .str "1")]⟩ ∧
    load (.parsed (.arr [.obj [("question", .str "q2"), ("answer", .str "a2"),
        ("metadata", .obj [("k", .str "2")])]]))
      = ⟨[⟨"q2", "a2", none, none, [], [("k", .str "2")]⟩], []⟩ :=
  load_metadata_flow
    [("question", .str "q"), ("answer", .str "a"),
      ("metadata", .obj [("v", .str "1")])]
    ⟨"q", "a", none, none, [], [("v", .str "1")]⟩
    [.obj [("question", .str "q2"), ("answer", .str "a2"),
      ("metadata", .obj [("k", .str "2")])]]
    [⟨"q2", "a2", none, none, [], [("k", .str "2")]⟩]
    rfl rfl rfl

/-- C9 (witness): on a freshly initialised store, take a snapshot, then
run a `set` followed by a `delete`; the snapshot still reads as the
(empty) dict the store held at snapshot time. -/
theorem getAll_snapshot_isolated_witness :
    readRef (applyOps (storeGetAll StoreState.init).1
        [StoreOp.set (mkRunSession "CA1" "MZ1" "en-IN" 0), StoreOp.del "CA1"]).heap
      (storeGetAll StoreState.init).2
      = readRef StoreState.init.heap StoreState.init.storeRef :=
  getAll_snapshot_isolated StoreState.init
    [StoreOp.set (mkRunSession "CA1" "MZ1" "en-IN" 0), StoreOp.del "CA1"]
    (by decide)
